import Mathlib

/-!
Shallow embedding of the taco lowering engine (src/lower/lower.cpp) and of the
tensor front end (src/tensor_base.cpp), together with theorems that settle the
frozen claims about the specification of this repository.

External collaborators of the core (iteration graph construction, merge
lattice construction, the Iterator storage interface, the IR simplifier and
the small IR generators) are not part of src/; they are modelled either as
abstract inputs (query functions carried inside the structures below) or,
where noted, by definitions whose doc comment starts with the words Modelled
from the spec.
-/

namespace Taco

/-- Tensor properties read through GetProperty in the emitted IR (ir.h). -/
inductive TensorProperty
  | Values
  | ValuesSize
deriving DecidableEq, Repr, Inhabited

/-- Loop kinds attached to emitted for loops (ir.h). -/
inductive LoopKind
  | Serial
  | Static
  | Dynamic
deriving DecidableEq, Repr, Inhabited

/-- Lowering properties (the taco Property set). -/
inductive Property
  | assemble
  | compute
  | accumulate
  | printp
deriving DecidableEq, Repr, Inhabited

/-- Emitted IR expressions (taco ir.h), restricted to the node kinds that the
lowering code under src/ builds.  Floating point literals carry an integer
payload because the lowering only constructs and moves them (the literal 0.0
becomes litf 0); no floating point arithmetic is modelled. -/
inductive IRExpr
  | lit (n : Int)
  | litf (n : Int)
  | varE (name : String)
  | getProperty (tensor : String) (prop : TensorProperty)
  | add (a b : IRExpr)
  | sub (a b : IRExpr)
  | mul (a b : IRExpr)
  | lt (a b : IRExpr)
  | lte (a b : IRExpr)
  | eqE (a b : IRExpr)
  | andE (a b : IRExpr)
deriving DecidableEq, Repr, Inhabited

/-- Emitted IR statements (taco ir.h), restricted to the statement kinds the
claims are about.  The statements produced by the external helpers min and
minWithIndicator (lower_codegen, outside src/) are represented by the two
dedicated constructors; each stands for the block of statements the helper
emits, keeping only the data the lowering decisions depend on.  A Block of
statements is modelled by right-nested seq. -/
inductive IRStmt
  | store (arr pos val : IRExpr)
  | varAssign (lhs rhs : IRExpr) (decl : Bool)
  | allocate (arr size : IRExpr) (realloc : Bool)
  | ifThenElse (cond : IRExpr) (body : IRStmt)
  | seq (a b : IRStmt)
  | forLoop (v lo hi inc : IRExpr) (body : IRStmt) (kind : LoopKind)
  | whileLoop (cond : IRExpr) (body : IRStmt)
  | minAssign (idx : IRExpr) (operands : List IRExpr)
  | minWithIndicatorStmt (idx ind : IRExpr) (operands : List IRExpr)
deriving DecidableEq, Repr, Inhabited

/-- The per tensor-path-step Iterator handle (storage/iterator.h, outside
src/).  The lowering treats it as a record of capabilities plus stable IR
variable bindings, which is exactly how it is modelled here: capability flags
plus the IR expressions its accessor methods return. -/
structure Iterator where
  name : String
  tensorName : String
  hasInsert : Bool := false
  hasAppend : Bool := false
  isFull : Bool := false
  isUnique : Bool := true
  isBranchless : Bool := false
  hasCoordPosIter : Bool := false
  size : IRExpr := .lit 0
  beginExpr : IRExpr := .lit 0
  endExpr : IRExpr := .lit 0
deriving DecidableEq, Repr, Inhabited

/-- The stable IR variable bound to the sequential counter of an iterator. -/
def Iterator.iteratorVar (it : Iterator) : IRExpr := .varE (it.name ++ "_iterator")

/-- The stable IR variable bound to the end of the iteration range. -/
def Iterator.endVar (it : Iterator) : IRExpr := .varE (it.name ++ "_end")

/-- The stable IR variable bound to the position of an iterator. -/
def Iterator.posVar (it : Iterator) : IRExpr := .varE (it.name ++ "_pos")

/-- The stable IR variable bound to the coordinate of an iterator. -/
def Iterator.idxVar (it : Iterator) : IRExpr := .varE (it.name ++ "_idx")

/-- The stable IR variable recording the begin position of a segment. -/
def Iterator.beginVar (it : Iterator) : IRExpr := .varE (it.name ++ "_begin")

/-- The stable IR variable used to scan duplicates of non-unique levels. -/
def Iterator.segendVar (it : Iterator) : IRExpr := .varE (it.name ++ "_segend")

/-- A tensor path: the ordered sequence of index variables used to access one
tensor, one step per storage level; every step carries its Iterator (the Ctx
iterator table is keyed by step, so the table is folded into the steps). -/
structure TensorPath where
  tensorName : String
  steps : List (String × Iterator)
deriving DecidableEq, Repr, Inhabited

/-- getVariables: the index variables of the path, in order. -/
def TensorPath.getVariables (p : TensorPath) : List String := p.steps.map Prod.fst

/-- getStep at an index variable (the first step over that variable). -/
def TensorPath.getStep (p : TensorPath) (v : String) : Option Iterator :=
  (p.steps.find? (fun s => s.1 == v)).map Prod.snd

/-- getSize: the number of steps of the path. -/
def TensorPath.getSize (p : TensorPath) : Nat := p.steps.length

/-- The iteration graph, consumed through its query interface only
(iteration_graph.h, outside src/): the queries the lowering performs are
carried as functions of the structure. -/
structure IterationGraph where
  roots : List String
  ancestors : String → List String
  isReduction : String → Bool
  hasReductionVariableAncestor : String → Bool
  resultTensorPath : TensorPath
  tensorPaths : List TensorPath

/-- The lowering context Ctx (lower.cpp): the property set and the iteration
graph.  The iterator table is folded into the tensor path steps. -/
structure Ctx where
  properties : List Property
  iterationGraph : IterationGraph

/-- Dereference of a step lookup by hasInsert; a variable with no step in
the path yields false. -/
def stepHasInsert (o : Option Iterator) : Bool :=
  match o with
  | some it => it.hasInsert
  | none => false

/-- Dereference of a step lookup by the negation of isFull; a variable with
no step in the path yields false. -/
def stepNotFull (o : Option Iterator) : Bool :=
  match o with
  | some it => !it.isFull
  | none => false

/-- needsZero over a given list of result index variables
(lower.cpp, lines 100 to 116). -/
def needsZeroVars (ctx : Ctx) (resultIdxVars : List String) : Bool :=
  resultIdxVars.any fun idxVar =>
    stepHasInsert (ctx.iterationGraph.resultTensorPath.getStep idxVar) &&
    ctx.iterationGraph.tensorPaths.any fun tp =>
      decide (idxVar ∈ tp.getVariables) &&
      stepNotFull (tp.getStep idxVar)

/-- needsZero over the whole result path (lower.cpp, lines 118 to 127). -/
def needsZero (ctx : Ctx) : Bool :=
  let resultIdxVars := ctx.iterationGraph.resultTensorPath.getVariables
  ctx.iterationGraph.hasReductionVariableAncestor (resultIdxVars.getLastD "") ||
  needsZeroVars ctx resultIdxVars

/-- doParallelize (lower.cpp, lines 167 to 204).  The unreachable branch in
which the iterated tensor matches no tensor path (asserted false in the
source) is mapped to Serial. -/
def doParallelize (indexVar : String) (tensorName : String) (ctx : Ctx) : LoopKind :=
  if (ctx.iterationGraph.ancestors indexVar).length != 1 ||
     ctx.iterationGraph.isReduction indexVar ||
     decide (Property.assemble ∈ ctx.properties) then
    .Serial
  else if ctx.iterationGraph.resultTensorPath.steps.any (fun s => !s.2.hasInsert) then
    .Serial
  else
    match ctx.iterationGraph.tensorPaths.find? (fun tp => tp.tensorName == tensorName) with
    | some pa =>
      if pa.getSize ≤ 2 then .Static
      else if (pa.steps.drop 1).any (fun s => s.2.isFull) then .Static
      else .Dynamic
    | none => .Serial

/-- The parallelization rule exactly as claim C1 words it: Serial only for
non-root, reduction or assembling; Static for at most two steps or when every
non-leading step of the parallelized access is full; Dynamic otherwise. -/
def claimedParallelize (indexVar : String) (tensorName : String) (ctx : Ctx) : LoopKind :=
  if !(decide (indexVar ∈ ctx.iterationGraph.roots)) ||
     ctx.iterationGraph.isReduction indexVar ||
     decide (Property.assemble ∈ ctx.properties) then
    .Serial
  else
    match ctx.iterationGraph.tensorPaths.find? (fun tp => tp.tensorName == tensorName) with
    | some pa =>
      if pa.getSize ≤ 2 then .Static
      else if (pa.steps.drop 1).all (fun s => s.2.isFull) then .Static
      else .Dynamic
    | none => .Serial

/-- The parallelization rule as amended to match the code: also Serial when
some result path step lacks insert capability, and Static already when some
non-leading step of the parallelized access is full. -/
def amendedParallelize (indexVar : String) (tensorName : String) (ctx : Ctx) : LoopKind :=
  if !(decide (indexVar ∈ ctx.iterationGraph.roots)) ||
     ctx.iterationGraph.isReduction indexVar ||
     decide (Property.assemble ∈ ctx.properties) then
    .Serial
  else if ctx.iterationGraph.resultTensorPath.steps.any (fun s => !s.2.hasInsert) then
    .Serial
  else
    match ctx.iterationGraph.tensorPaths.find? (fun tp => tp.tensorName == tensorName) with
    | some pa =>
      if pa.getSize ≤ 2 then .Static
      else if (pa.steps.drop 1).any (fun s => s.2.isFull) then .Static
      else .Dynamic
    | none => .Serial

/-- Modelled from the spec: the IR generator conjunction (ir_generators,
outside src/) combines a nonempty list of boolean expressions into a
left-nested conjunction; it must be a pure IR tree transform. -/
def conjunction : List IRExpr → IRExpr
  | [] => .lit 1
  | e :: es => es.foldl IRExpr.andE e

/-- noneExhausted (lower.cpp, lines 207 to 219): true iff none of the
iterators is exhausted; full iterators contribute no conjunct, and when all
iterators are full the first one is tested. -/
def noneExhausted (iterators : List Iterator) : IRExpr :=
  let stepIterLqEnd := (iterators.filter (fun it => !it.isFull)).map
    (fun it => IRExpr.lt it.iteratorVar it.endVar)
  if stepIterLqEnd.isEmpty then
    IRExpr.lt (iterators.headD default).iteratorVar (iterators.headD default).endVar
  else
    conjunction stepIterLqEnd

/-- emitMerge (lower.cpp, lines 357 to 360): merge when the lattice has two
or more range iterators or when deduplication is needed. -/
def emitMerge (latticeRangeIterators : List Iterator) : Bool :=
  decide (latticeRangeIterators.length > 1) ||
  !(latticeRangeIterators.headD default).isUnique

/-- The iterBegin and iterEnd expressions captured by the loop over the
lattice range iterators (lower.cpp, lines 364 to 391): the last assignment
wins, so they are the bounds of the last lattice range iterator. -/
def capturedBounds (latticeRangeIterators : List Iterator) : IRExpr × IRExpr :=
  match latticeRangeIterators.getLast? with
  | some it => (it.beginExpr, it.endExpr)
  | none => (default, default)

/-- The loop wrapper emitted for one lattice point (lower.cpp, lines 844 to
852): a while loop guarded by noneExhausted over the point range iterators
when merging, else a for loop over the first point range iterator from the
captured begin to the captured end with step 1, annotated by doParallelize. -/
def emitLoop (indexVar : String) (ctx : Ctx) (latticeRangeIterators : List Iterator)
    (lpRangeIterators : List Iterator) (body : IRStmt) : IRStmt :=
  let bounds := capturedBounds latticeRangeIterators
  if emitMerge latticeRangeIterators then
    .whileLoop (noneExhausted lpRangeIterators) body
  else
    let iter := lpRangeIterators.headD default
    .forLoop iter.iteratorVar bounds.1 bounds.2 (.lit 1) body
      (doParallelize indexVar iter.tensorName ctx)

/-- Modelled from the spec: the number of bits of an unsigned machine word,
the value of UInt().getNumBits() (taco/type.h, outside src/). -/
def wordBits : Nat := 32

/-- mergeWithSwitch (lower.cpp, lines 511 to 513): use a min with indicator
when the point has more than two range iterators, at most wordBits of them,
and the sub-lattice enumerates every non-empty subset. -/
def mergeWithSwitchCond (lpRangeIterators : List Iterator) (subLatticeSize : Nat) : Bool :=
  decide (lpRangeIterators.length > 2) &&
  decide (lpRangeIterators.length ≤ wordBits) &&
  (subLatticeSize == (1 <<< lpRangeIterators.length) - 1)

/-- The conditional vals array resize (lower.cpp, lines 577 to 588): when the
capacity is at most posVar plus one, reallocate to twice posVar plus one and
record the new capacity. -/
def makeResizeVals (resultIterator : Iterator) (valsCapacity : IRExpr) : IRStmt :=
  let vals := IRExpr.getProperty resultIterator.tensorName .Values
  let newValsEnd := IRExpr.add resultIterator.posVar (.lit 1)
  let newCapacity := IRExpr.mul (.lit 2) newValsEnd
  let resizeVals := IRStmt.allocate vals newCapacity true
  let updateCapacity := IRStmt.varAssign valsCapacity newCapacity false
  let doResize := IRStmt.seq resizeVals updateCapacity
  let shouldResize := IRExpr.lte valsCapacity newValsEnd
  IRStmt.ifThenElse shouldResize doResize

/-- One point lq of the sub-lattice rooted at the outer point lp, reduced to
the data the emission decisions use; body stands for the compute, recursion
and assembly statements of the case (lower.cpp, lines 611 to 808), which the
claims treat as given. -/
structure SubPoint where
  rangeIterators : List Iterator
  body : List IRStmt
deriving DecidableEq, Repr, Inhabited

/-- The code emitted for one outer lattice point, split at the case
statement: the statements placed before the cases, the switch expression
driving the case dispatch when defined, and one body per sub-lattice case. -/
structure PointEmission where
  mergeCode : List IRStmt
  switchExpr : Option IRExpr
  caseBodies : List (List IRStmt)
deriving DecidableEq, Repr, Inhabited

/-- The merged coordinate and case emission for one outer lattice point
(lower.cpp, lines 509 to 611): choose min with indicator or plain min, emit
segend initializations for non-unique position iterators, and place the
conditional vals resize before the cases when the sub-lattice has several
points or inside the single case body when it has exactly one.  The idx
binding and the locate position initializations (external Iterator methods)
contribute no statements to this model. -/
def emitPointCases (emitCompute emitAssemble : Bool) (resultIterator : Option Iterator)
    (resultStepIsLast : Bool) (valsCapacity : IRExpr) (indexVarName : String)
    (lpRangeIterators : List Iterator) (subPoints : List SubPoint) : PointEmission :=
  let mws := mergeWithSwitchCond lpRangeIterators subPoints.length
  let idx := IRExpr.varE indexVarName
  let ind := IRExpr.varE (indexVarName ++ "_indicator")
  let minCode : List IRStmt :=
    if mws then
      [.minWithIndicatorStmt idx ind (lpRangeIterators.map Iterator.idxVar)]
    else
      [.minAssign idx (lpRangeIterators.map Iterator.idxVar)]
  let segendInits := lpRangeIterators.filterMap fun it =>
    if it.hasCoordPosIter && !it.isUnique then
      some (IRStmt.varAssign it.segendVar (.add it.posVar (.lit 1)) true)
    else
      none
  let maybeResizeVals : Option IRStmt :=
    match resultIterator with
    | some rit =>
      if emitCompute && emitAssemble && rit.hasAppend && resultStepIsLast then
        some (makeResizeVals rit valsCapacity)
      else none
    | none => none
  let mergeCode := minCode ++ segendInits ++
    (match maybeResizeVals with
     | some r => if subPoints.length > 1 then [r] else []
     | none => [])
  let caseBodies := subPoints.map fun lq =>
    (match maybeResizeVals with
     | some r => if subPoints.length == 1 then [r] else []
     | none => []) ++ lq.body
  { mergeCode := mergeCode
    switchExpr := if mws then some ind else none
    caseBodies := caseBodies }

/-- Whether an IR expression is an integer literal (isa Literal). -/
def isLit : IRExpr → Bool
  | .lit _ => true
  | _ => false

/-- Whether an IR expression is an integer literal equal to the given scalar
(isa Literal plus equalsScalar). -/
def isLitScalar (e : IRExpr) (v : Int) : Bool :=
  match e with
  | .lit n => n == v
  | _ => false

/-- Modelled from the spec: simplify (ir/simplify.h, outside src/) is a pure
IR tree transform; on the products the driver builds it constant-folds
multiplications by literal constants. -/
def simplifyMul : IRExpr → IRExpr → IRExpr
  | .lit a, .lit b => .lit (a * b)
  | .lit 0, _ => .lit 0
  | _, .lit 0 => .lit 0
  | .lit 1, b => b
  | a, .lit 1 => a
  | a, b => .mul a b

/-- The result iterator selected by the driver (lower.cpp, lines 909 to 911):
the iterator of the last result path step, or the root iterator of the result
path for a scalar output. -/
def resultIteratorOf (ctx : Ctx) (rootIterator : Iterator) : Iterator :=
  match ctx.iterationGraph.resultTensorPath.steps.getLast? with
  | some s => s.2
  | none => rootIterator

/-- The size accumulator folded over the result path steps by the driver
(lower.cpp, lines 917 to 940): zero once a step appends, otherwise the
simplified product with the step size. -/
def driverPrevSz (ctx : Ctx) : IRExpr :=
  ctx.iterationGraph.resultTensorPath.steps.foldl
    (fun prevSz s => if s.2.hasAppend then .lit 0 else simplifyMul prevSz s.2.size)
    (.lit 1)

/-- The dense size expression sz used by the compute initialization
(lower.cpp, lines 943 to 947). -/
def driverSz (ctx : Ctx) (allocSize : Int) (rootIterator : Iterator) : IRExpr :=
  let prevSz := driverPrevSz ctx
  if isLitScalar prevSz 0 then
    (if decide (Property.assemble ∈ ctx.properties) then .lit allocSize
     else .getProperty (resultIteratorOf ctx rootIterator).tensorName .ValuesSize)
  else prevSz

/-- The statements the driver emits to zero the result values (lower.cpp,
lines 942 and 963 to 975): when computing without Accumulate, a store of 0.0
at position 0 for a scalar output, else a for loop zeroing the dense prefix
when the result iterator is insertable, needsZero holds, and sz is not a
literal equal to allocSize. -/
def driverZeroStmts (ctx : Ctx) (name : String) (allocSize : Int)
    (rootIterator : Iterator) : List IRStmt :=
  let resultPath := ctx.iterationGraph.resultTensorPath
  let resultIterator := resultIteratorOf ctx rootIterator
  let targetTensor := IRExpr.getProperty resultIterator.tensorName .Values
  if decide (Property.compute ∈ ctx.properties) then
    let sz := driverSz ctx allocSize rootIterator
    if !(decide (Property.accumulate ∈ ctx.properties)) then
      if resultPath.getSize == 0 then
        [.store targetTensor (.lit 0) (.litf 0)]
      else if resultIterator.hasInsert && needsZero ctx &&
              (!(isLit sz) || !(isLitScalar sz allocSize)) then
        [.forLoop (.varE ("p" ++ name)) (.lit 0) sz (.lit 1)
          (.store targetTensor (.varE ("p" ++ name)) (.litf 0)) .Serial]
      else []
    else []
  else []

/-- The zero-fill emission rule exactly as claim C3 words it for a non-scalar
output: the zero loop is emitted exactly when needsZero holds and the topmost
result step is insertable. -/
def claimedZeroLoopEmitted (ctx : Ctx) : Bool :=
  (match ctx.iterationGraph.resultTensorPath.steps.head? with
   | some s => s.2.hasInsert
   | none => false) && needsZero ctx

/-- Modelled from the spec: an index statement reduced to the truth values of
the programmer error predicates named by section 7 of the specification.  The
predicate isConcreteNotation lives outside src/ (index_notation.cpp); per the
specification, reduction nodes surviving to lowering make the notation
non-concrete. -/
structure IndexStmtInfo where
  isConcreteNotation : Bool
  hasReductionNodes : Bool
  formatDimensionMismatch : Bool
  duplicateAssignment : Bool
  unsupportedTransposition : Bool
deriving DecidableEq, Repr, Inhabited

/-- isLowerable (lower.cpp, lines 1046 to 1062): reject non-concrete notation
with a reason string; the transposition check is commented out in the source,
and no other check is performed. -/
def isLowerable (stmt : IndexStmtInfo) : Bool × String :=
  if !stmt.isConcreteNotation then
    (false, "The index statement is not in concrete index notation")
  else
    (true, "")

/-- The kinds of operator nodes an assignment may carry; the assignment
operator is either undefined (none) or one of these. -/
inductive OperatorKind
  | add
  | sub
  | mul
  | div
  | neg
  | other
deriving DecidableEq, Repr, Inhabited

/-- The driver operator contract (lower.cpp, lines 883 to 884): the top level
assignment operator must be undefined or Add, otherwise the tassert aborts. -/
def driverAcceptsOperator (op : Option OperatorKind) : Bool :=
  !op.isSome || (op == some .add)

/-- The driver property update (lower.cpp, lines 885 to 887): insert
Accumulate into the property set exactly when the operator is Add. -/
def driverProperties (op : Option OperatorKind) (properties : List Property) : List Property :=
  if op = some OperatorKind.add then
    (if Property.accumulate ∈ properties then properties
     else properties ++ [Property.accumulate])
  else properties

/-- Component types of tensor values (ComponentType). -/
inductive ComponentType
  | bool
  | int
  | float
  | double
deriving DecidableEq, Repr, Inhabited

/-- Storage level kinds (format.h). -/
inductive LevelType
  | Dense
  | Sparse
  | Fixed
  | Offset
  | Replicated
deriving DecidableEq, Repr, Inhabited

/-- A pending coordinate (tensor.h, outside src/): the location plus one
value field per component type, the constructor used by each insert overload
setting the matching field.  The float and double value carriers are
abstracted to integers because tensor_base.cpp only moves them. -/
structure Coordinate where
  loc : List Int
  ival : Int := 0
  fval : Int := 0
  dval : Int := 0
  bval : Bool := false
deriving DecidableEq, Repr, Inhabited

/-- The TensorBase content (tensor_base.cpp): name, dimensions, component
type, the pending coordinate buffer, the format levels, and the packed
storage values array. -/
structure TensorBase where
  name : String
  dimensions : List Int
  ctype : ComponentType
  coordinates : List Coordinate
  levels : List LevelType
  values : List Int
deriving DecidableEq, Repr, Inhabited

/-- getOrder: the number of dimensions. -/
def TensorBase.order (t : TensorBase) : Nat := t.dimensions.length

/-- insert with an int value (tensor_base.cpp, lines 296 to 302): uassert the
coordinate arity and the component type, then append one coordinate. -/
def TensorBase.insertInt (t : TensorBase) (coord : List Int) (val : Int) :
    Except String TensorBase :=
  if coord.length ≠ t.order then .error ("Wrong number of indices")
  else if t.ctype ≠ ComponentType.int then
    .error ("Cannot insert a value of type Int into a tensor with another component type")
  else .ok { t with coordinates := t.coordinates ++ [{ loc := coord, ival := val }] }

/-- insert with a float value (tensor_base.cpp, lines 304 to 310). -/
def TensorBase.insertFloat (t : TensorBase) (coord : List Int) (val : Int) :
    Except String TensorBase :=
  if coord.length ≠ t.order then .error ("Wrong number of indices")
  else if t.ctype ≠ ComponentType.float then
    .error ("Cannot insert a value of type Float into a tensor with another component type")
  else .ok { t with coordinates := t.coordinates ++ [{ loc := coord, fval := val }] }

/-- insert with a double value (tensor_base.cpp, lines 312 to 318). -/
def TensorBase.insertDouble (t : TensorBase) (coord : List Int) (val : Int) :
    Except String TensorBase :=
  if coord.length ≠ t.order then .error ("Wrong number of indices")
  else if t.ctype ≠ ComponentType.double then
    .error ("Cannot insert a value of type Double into a tensor with another component type")
  else .ok { t with coordinates := t.coordinates ++ [{ loc := coord, dval := val }] }

/-- insert with a bool value (tensor_base.cpp, lines 320 to 326). -/
def TensorBase.insertBool (t : TensorBase) (coord : List Int) (val : Bool) :
    Except String TensorBase :=
  if coord.length ≠ t.order then .error ("Wrong number of indices")
  else if t.ctype ≠ ComponentType.bool then
    .error ("Cannot insert a value of type Bool into a tensor with another component type")
  else .ok { t with coordinates := t.coordinates ++ [{ loc := coord, bval := val }] }

/-- The scalar branch of pack (tensor_base.cpp, lines 458 to 469): for an
order zero tensor, allocate a one element values array holding the dval of
the last pending coordinate and clear the buffer.  The branch for higher
orders (the recursive packTensor) is outside the scope of the claims and is
mapped to none. -/
def TensorBase.pack (t : TensorBase) : Option TensorBase :=
  if t.order = 0 then
    some { t with
      values := [(t.coordinates.getLastD default).dval]
      coordinates := [] }
  else none

/-- The success and effect contract of one insert overload: success exactly
for matching arity and component type, and on success exactly one coordinate
appended with everything else unchanged. -/
def InsertOk (t : TensorBase) (c : List Int) (newCoord : Coordinate)
    (res : Except String TensorBase) (typeMatches : Prop) : Prop :=
  ((∃ u, res = .ok u) ↔ (c.length = t.order ∧ typeMatches)) ∧
  ∀ u, res = .ok u →
    u.coordinates = t.coordinates ++ [newCoord] ∧ u.name = t.name ∧
    u.dimensions = t.dimensions ∧ u.levels = t.levels ∧ u.values = t.values

/-! Concrete instances used by the witnesses and the counterexamples. -/

/-- A dense result step with insert capability (topmost result level). -/
def itResTop : Iterator :=
  { name := "A1", tensorName := "A", hasInsert := true, size := .varE "A1_size" }

/-- A dense result step with insert capability (innermost result level). -/
def itResBot : Iterator :=
  { name := "A2", tensorName := "A", hasInsert := true, size := .varE "A2_size" }

/-- An appending result step without insert capability. -/
def itResApp : Iterator := { name := "A2", tensorName := "A", hasAppend := true }

/-- A leading input step that is not full. -/
def itBlead : Iterator := { name := "B1", tensorName := "B" }

/-- A full input step. -/
def itBfull : Iterator := { name := "B2", tensorName := "B", isFull := true }

/-- A sparse input step that is not full. -/
def itBsparse : Iterator := { name := "B3", tensorName := "B", hasCoordPosIter := true }

/-- A non-unique sparse iterator, forcing deduplication merges. -/
def itBdup : Iterator :=
  { name := "B4", tensorName := "B", hasCoordPosIter := true, isUnique := false }

/-- A fully insertable two step result path. -/
def pathAins : TensorPath :=
  { tensorName := "A", steps := [("i", itResTop), ("j", itResBot)] }

/-- A three step input path whose second step is full and third is not. -/
def pathBmix : TensorPath :=
  { tensorName := "B", steps := [("i", itBlead), ("j", itBfull), ("k", itBsparse)] }

/-- An iteration graph with the single root i over those two paths. -/
def graphPar : IterationGraph :=
  { roots := ["i"]
    ancestors := fun v => if v == "i" then ["i"] else ["i", v]
    isReduction := fun _ => false
    hasReductionVariableAncestor := fun _ => false
    resultTensorPath := pathAins
    tensorPaths := [pathBmix] }

/-- A compute-only context over that graph. -/
def ctxPar : Ctx := { properties := [Property.compute], iterationGraph := graphPar }

/-- A result path whose topmost step inserts and whose last step appends. -/
def pathTopInsLastApp : TensorPath :=
  { tensorName := "A", steps := [("i", itResTop), ("j", itResApp)] }

/-- A graph in which the innermost result variable has a reduction ancestor
and the result path is pathTopInsLastApp. -/
def graphC3 : IterationGraph :=
  { roots := ["i"]
    ancestors := fun v => [v]
    isReduction := fun _ => false
    hasReductionVariableAncestor := fun v => v == "j"
    resultTensorPath := pathTopInsLastApp
    tensorPaths := [] }

/-- A compute-only context over graphC3. -/
def ctxC3 : Ctx := { properties := [Property.compute], iterationGraph := graphC3 }

/-- The root iterator of the result tensor A. -/
def rootItA : Iterator := { name := "A", tensorName := "A" }

/-- A dense insertable vector result step. -/
def itVecIns : Iterator :=
  { name := "a1", tensorName := "a", hasInsert := true, size := .varE "a1_size" }

/-- A graph with a dense insertable vector result whose variable has a
reduction ancestor. -/
def graphC3w : IterationGraph :=
  { roots := ["i"]
    ancestors := fun v => [v]
    isReduction := fun _ => false
    hasReductionVariableAncestor := fun v => v == "i"
    resultTensorPath := { tensorName := "a", steps := [("i", itVecIns)] }
    tensorPaths := [] }

/-- A compute-only context over graphC3w. -/
def ctxC3w : Ctx := { properties := [Property.compute], iterationGraph := graphC3w }

/-- The root iterator of the result tensor a. -/
def rootIta : Iterator := { name := "a", tensorName := "a" }

/-- A sample loop body statement. -/
def bodyEx : IRStmt := .store (.varE "x") (.lit 0) (.lit 0)

/-- Four range iterators, enough to enable the min with indicator. -/
def itersFour : List Iterator :=
  [{ name := "w", tensorName := "w" }, { name := "x", tensorName := "x" },
   { name := "y", tensorName := "y" }, { name := "z", tensorName := "z" }]

/-- Fifteen sub-lattice points: every non-empty subset of four iterators. -/
def subsFifteen : List SubPoint :=
  List.replicate 15 { rangeIterators := [], body := [] }

/-- Two sub-lattice points. -/
def subsTwo : List SubPoint :=
  [{ rangeIterators := [], body := [bodyEx] }, { rangeIterators := [], body := [] }]

/-- One sub-lattice point. -/
def subsOne : List SubPoint := [{ rangeIterators := [], body := [bodyEx] }]

/-- A concrete index statement that is concrete notation but contains an
unsupported transposition. -/
def stmtTrans : IndexStmtInfo :=
  { isConcreteNotation := true
    hasReductionNodes := false
    formatDimensionMismatch := false
    duplicateAssignment := false
    unsupportedTransposition := true }

/-- A concrete index statement that is not concrete notation. -/
def stmtNotConcrete : IndexStmtInfo :=
  { isConcreteNotation := false
    hasReductionNodes := true
    formatDimensionMismatch := false
    duplicateAssignment := false
    unsupportedTransposition := false }

/-- A double typed order one tensor with an empty coordinate buffer. -/
def tEx : TensorBase :=
  { name := "a", dimensions := [3], ctype := .double, coordinates := []
    levels := [.Dense], values := [] }

/-- A double typed scalar tensor with two pending coordinates. -/
def tScalar : TensorBase :=
  { name := "alpha", dimensions := [], ctype := .double
    coordinates := [{ loc := [], dval := 3 }, { loc := [], dval := 7 }]
    levels := [], values := [] }

/-- An int typed scalar tensor with an empty coordinate buffer. -/
def tScalarInt : TensorBase :=
  { name := "n", dimensions := [], ctype := .int, coordinates := []
    levels := [], values := [] }

/-- The int typed scalar tensor after inserting the int value 5. -/
def tScalarIntIns : TensorBase :=
  { tScalarInt with coordinates := [{ loc := [], ival := 5 }] }

/-! Helper lemmas shared by the claim theorems. -/

theorem stepHasInsert_eq_true (o : Option Iterator) :
    stepHasInsert o = true ↔ ∃ it, o = some it ∧ it.hasInsert = true := by
  cases o <;> simp [stepHasInsert]

theorem stepNotFull_eq_true (o : Option Iterator) :
    stepNotFull o = true ↔ ∃ it, o = some it ∧ it.isFull = false := by
  cases o <;> simp [stepNotFull, Bool.not_eq_true']

theorem zeroGuard_eq (sz : IRExpr) (a : Int) :
    (!(isLit sz) || !(isLitScalar sz a)) = !(isLitScalar sz a) := by
  cases sz <;> simp [isLit, isLitScalar]

theorem isLitScalar_isLit (sz : IRExpr) (a : Int) (h : isLitScalar sz a = true) :
    isLit sz = true := by
  cases sz <;> simp_all [isLit, isLitScalar]

/-- C1: the parallelization decision.  The claim predicts Serial only for a
non-root, reduction or assembling variable, then Static for a path of at
most two steps or with every non-leading step full, else Dynamic.  The code
additionally returns Serial when some result path step lacks insert
capability, and returns Static as soon as some non-leading step is full.
This counterexample exhibits a path with a full second step and a non-full
third step on which the code answers Static and the claim Dynamic. -/
theorem C1_counterexample :
    doParallelize "i" "B" ctxPar = LoopKind.Static ∧
    claimedParallelize "i" "B" ctxPar = LoopKind.Dynamic := by
  constructor <;> decide

/-- C1 (amended): for a graph in which membership in the roots agrees with
having a singleton ancestor list at the queried variable, doParallelize
returns Serial when the variable is not a root, is a reduction, Assemble is
set, or some result path step lacks insert capability; otherwise Static for
a parallelized access of at most two steps or with some non-leading full
step, and Dynamic in the remaining cases. -/
theorem C1_doParallelize_amended (iv tn : String) (ctx : Ctx)
    (hroot : iv ∈ ctx.iterationGraph.roots ↔ (ctx.iterationGraph.ancestors iv).length = 1) :
    doParallelize iv tn ctx = amendedParallelize iv tn ctx := by
  have hb : (!(decide (iv ∈ ctx.iterationGraph.roots)))
      = ((ctx.iterationGraph.ancestors iv).length != 1) := by
    by_cases h : (ctx.iterationGraph.ancestors iv).length = 1
    · have hm : iv ∈ ctx.iterationGraph.roots := hroot.mpr h
      simp [h, hm]
    · have hm : iv ∉ ctx.iterationGraph.roots := fun c => h (hroot.mp c)
      simp [h, hm]
  unfold doParallelize amendedParallelize
  rw [hb]

/-- C1 witness: the amended rule evaluated on a concrete context. -/
theorem C1_witness :
    doParallelize "i" "B" ctxPar = amendedParallelize "i" "B" ctxPar :=
  C1_doParallelize_amended "i" "B" ctxPar (by decide)

/-- C2: needsZero holds exactly when the innermost result index variable has
a reduction variable ancestor, or some result index variable has an
insertable result step and appears on an input tensor path whose iterator at
that variable is not full. -/
theorem C2_needsZero_spec (ctx : Ctx)
    (hne : ctx.iterationGraph.resultTensorPath.steps ≠ []) :
    needsZero ctx = true ↔
      ctx.iterationGraph.hasReductionVariableAncestor
        (ctx.iterationGraph.resultTensorPath.getVariables.getLastD "") = true ∨
      ∃ v ∈ ctx.iterationGraph.resultTensorPath.getVariables,
        (∃ it, ctx.iterationGraph.resultTensorPath.getStep v = some it ∧
          it.hasInsert = true) ∧
        ∃ tp ∈ ctx.iterationGraph.tensorPaths, v ∈ tp.getVariables ∧
          ∃ it2, tp.getStep v = some it2 ∧ it2.isFull = false := by
  unfold needsZero needsZeroVars
  simp only [Bool.or_eq_true, List.any_eq_true, Bool.and_eq_true,
    stepHasInsert_eq_true, stepNotFull_eq_true, decide_eq_true_eq]

/-- C2 witness: needsZero on a concrete context whose innermost result
variable has a reduction ancestor. -/
theorem C2_witness : needsZero ctxC3 = true :=
  (C2_needsZero_spec ctxC3 (by decide)).mpr (Or.inl (by decide))

/-- C3: the claim predicts the zero loop exactly when needsZero holds and
the topmost result step is insertable.  On this context the topmost result
step inserts and needsZero holds, yet the code emits nothing because the
result iterator the driver tests is the one of the last step, which only
appends. -/
theorem C3_counterexample :
    driverZeroStmts ctxC3 "A" 32 rootItA = [] ∧
    claimedZeroLoopEmitted ctxC3 = true := by
  constructor <;> decide

/-- C3 (amended): computing without Accumulate, the driver stores 0.0 at
position 0 of the result values for a scalar output, and otherwise emits the
zeroing for loop exactly when the iterator of the last result step is
insertable, needsZero holds, and the computed size is not a literal equal to
allocSize. -/
theorem C3_driver_zero_amended (ctx : Ctx) (name : String) (allocSize : Int)
    (rootIterator : Iterator)
    (hc : Property.compute ∈ ctx.properties)
    (hna : Property.accumulate ∉ ctx.properties) :
    (ctx.iterationGraph.resultTensorPath.getSize = 0 →
      driverZeroStmts ctx name allocSize rootIterator =
        [.store (.getProperty (resultIteratorOf ctx rootIterator).tensorName .Values)
          (.lit 0) (.litf 0)]) ∧
    (ctx.iterationGraph.resultTensorPath.getSize ≠ 0 →
      (driverZeroStmts ctx name allocSize rootIterator =
          [.forLoop (.varE ("p" ++ name)) (.lit 0)
            (driverSz ctx allocSize rootIterator) (.lit 1)
            (.store (.getProperty (resultIteratorOf ctx rootIterator).tensorName .Values)
              (.varE ("p" ++ name)) (.litf 0)) .Serial] ↔
        ((resultIteratorOf ctx rootIterator).hasInsert = true ∧ needsZero ctx = true ∧
          isLitScalar (driverSz ctx allocSize rootIterator) allocSize = false))) ∧
    (ctx.iterationGraph.resultTensorPath.getSize ≠ 0 →
      ¬((resultIteratorOf ctx rootIterator).hasInsert = true ∧ needsZero ctx = true ∧
          isLitScalar (driverSz ctx allocSize rootIterator) allocSize = false) →
      driverZeroStmts ctx name allocSize rootIterator = []) := by
  have hbne : ∀ h0 : ctx.iterationGraph.resultTensorPath.getSize ≠ 0,
      (ctx.iterationGraph.resultTensorPath.getSize == 0) = false := by
    intro h0
    exact beq_eq_false_iff_ne.mpr h0
  refine ⟨?_, ?_, ?_⟩
  · intro h0
    simp [driverZeroStmts, hc, hna, h0]
  · intro h0
    by_cases hL : isLitScalar (driverSz ctx allocSize rootIterator) allocSize = true
    · have hIL : isLit (driverSz ctx allocSize rootIterator) = true :=
        isLitScalar_isLit _ _ hL
      cases hI : (resultIteratorOf ctx rootIterator).hasInsert <;>
        cases hz : needsZero ctx <;>
          simp [driverZeroStmts, hc, hna, hbne h0, hI, hz, hL, hIL]
    · have hL' : isLitScalar (driverSz ctx allocSize rootIterator) allocSize = false :=
        Bool.eq_false_iff.mpr hL
      cases hI : (resultIteratorOf ctx rootIterator).hasInsert <;>
        cases hz : needsZero ctx <;>
          simp [driverZeroStmts, hc, hna, hbne h0, hI, hz, hL']
  · intro h0 hcond
    by_cases hL : isLitScalar (driverSz ctx allocSize rootIterator) allocSize = true
    · have hIL : isLit (driverSz ctx allocSize rootIterator) = true :=
        isLitScalar_isLit _ _ hL
      simp_all [driverZeroStmts, hbne h0]
    · have hL' : isLitScalar (driverSz ctx allocSize rootIterator) allocSize = false :=
        Bool.eq_false_iff.mpr hL
      cases hI : (resultIteratorOf ctx rootIterator).hasInsert <;>
        cases hz : needsZero ctx <;>
          simp_all [driverZeroStmts, hbne h0]

/-- C3 witness: a dense insertable vector output with a reduction ancestor
gets the zeroing loop. -/
theorem C3_witness :
    driverZeroStmts ctxC3w "a" 32 rootIta =
      [.forLoop (.varE "pa") (.lit 0) (.varE "a1_size") (.lit 1)
        (.store (.getProperty "a" .Values) (.varE "pa") (.litf 0)) .Serial] := by
  have h := ((C3_driver_zero_amended ctxC3w "a" 32 rootIta (by decide)
    (by decide)).2.1 (by decide)).mpr ⟨by decide, by decide, by decide⟩
  exact h.trans (by decide)

/-- C4: merging happens exactly when the lattice has more than one range
iterator or its first range iterator is not unique; when merging, each
lattice point body is wrapped in a while loop guarded by noneExhausted over
the point range iterators, and otherwise in a for loop over the single range
iterator variable from its begin to its end with step 1. -/
theorem C4_loop_emission (indexVar : String) (ctx : Ctx) (R lpR : List Iterator)
    (body : IRStmt) (it : Iterator) :
    (emitMerge R = (decide (R.length > 1) || !(R.headD default).isUnique)) ∧
    (emitMerge R = true →
      emitLoop indexVar ctx R lpR body = .whileLoop (noneExhausted lpR) body) ∧
    (emitMerge R = false → R = [it] → lpR.headD default = it →
      emitLoop indexVar ctx R lpR body =
        .forLoop it.iteratorVar it.beginExpr it.endExpr (.lit 1) body
          (doParallelize indexVar it.tensorName ctx)) := by
  refine ⟨rfl, ?_, ?_⟩
  · intro h
    simp [emitLoop, h]
  · intro h hR hhead
    subst hR
    simp only [List.headD_eq_head?] at hhead
    simp [emitLoop, h, capturedBounds, hhead]

/-- C4 witness: a single non-unique range iterator forces the merge form. -/
theorem C4_witness :
    emitLoop "i" ctxPar [itBdup] [itBdup] bodyEx =
      .whileLoop (noneExhausted [itBdup]) bodyEx :=
  (C4_loop_emission "i" ctxPar [itBdup] [itBdup] bodyEx itBdup).2.1 (by decide)

theorem mergeWithSwitchCond_iff (lpR : List Iterator) (n : Nat) :
    mergeWithSwitchCond lpR n = true ↔
      (2 < lpR.length ∧ lpR.length ≤ wordBits ∧ n = 2 ^ lpR.length - 1) := by
  simp [mergeWithSwitchCond, Nat.shiftLeft_eq, Bool.and_eq_true,
    decide_eq_true_eq, beq_iff_eq, and_assoc]

/-- C5: the merged coordinate is computed by a min with indicator, and the
cases are dispatched on the indicator, exactly when the point has more than
two range iterators, at most wordBits of them, and the sub-lattice has
2 to the n minus 1 points; otherwise a plain min is emitted and no switch
expression is defined. -/
theorem C5_min_with_indicator (ec ea : Bool) (ri : Option Iterator) (rl : Bool)
    (vc : IRExpr) (ivn : String) (lpR : List Iterator) (subs : List SubPoint) :
    (((emitPointCases ec ea ri rl vc ivn lpR subs).mergeCode.head? =
        some (.minWithIndicatorStmt (.varE ivn) (.varE (ivn ++ "_indicator"))
          (lpR.map Iterator.idxVar)) ∧
      (emitPointCases ec ea ri rl vc ivn lpR subs).switchExpr =
        some (.varE (ivn ++ "_indicator"))) ↔
      (2 < lpR.length ∧ lpR.length ≤ wordBits ∧ subs.length = 2 ^ lpR.length - 1)) ∧
    (¬(2 < lpR.length ∧ lpR.length ≤ wordBits ∧ subs.length = 2 ^ lpR.length - 1) →
      (emitPointCases ec ea ri rl vc ivn lpR subs).mergeCode.head? =
        some (.minAssign (.varE ivn) (lpR.map Iterator.idxVar)) ∧
      (emitPointCases ec ea ri rl vc ivn lpR subs).switchExpr = none) := by
  by_cases hm : mergeWithSwitchCond lpR subs.length = true
  · have hp := (mergeWithSwitchCond_iff lpR subs.length).mp hm
    constructor
    · simp only [emitPointCases, hm, if_true]
      simp [hp]
    · intro hcontra
      exact absurd hp hcontra
  · have hp : ¬(2 < lpR.length ∧ lpR.length ≤ wordBits ∧
        subs.length = 2 ^ lpR.length - 1) :=
      fun hcc => hm ((mergeWithSwitchCond_iff lpR subs.length).mpr hcc)
    have hm' : mergeWithSwitchCond lpR subs.length = false :=
      Bool.eq_false_iff.mpr hm
    constructor
    · simp [emitPointCases, hm', hp]
    · intro _
      simp [emitPointCases, hm']

/-- C5 witness: four range iterators with a fifteen point sub-lattice take
the min with indicator path. -/
theorem C5_witness :
    (emitPointCases true true none true (.varE "cap") "k"
        itersFour subsFifteen).mergeCode.head? =
      some (.minWithIndicatorStmt (.varE "k") (.varE "k_indicator")
        (itersFour.map Iterator.idxVar)) ∧
    (emitPointCases true true none true (.varE "cap") "k"
        itersFour subsFifteen).switchExpr = some (.varE "k_indicator") :=
  ((C5_min_with_indicator true true none true (.varE "cap") "k"
    itersFour subsFifteen).1).mpr (by decide)

/-- C6: assembling plus computing with an appending last result step emits
the conditional values resize, doubling the capacity when it is at most
posVar plus one; the conditional goes once before the cases when the
sub-lattice has several points, and inside the single case body otherwise. -/
theorem C6_resize_placement (ri : Iterator) (vc : IRExpr) (ivn : String)
    (lpR : List Iterator) (subs : List SubPoint)
    (happ : ri.hasAppend = true) :
    (makeResizeVals ri vc =
      .ifThenElse (.lte vc (.add ri.posVar (.lit 1)))
        (.seq (.allocate (.getProperty ri.tensorName .Values)
            (.mul (.lit 2) (.add ri.posVar (.lit 1))) true)
          (.varAssign vc (.mul (.lit 2) (.add ri.posVar (.lit 1))) false))) ∧
    (1 < subs.length →
      (emitPointCases true true (some ri) true vc ivn lpR subs).mergeCode =
        (emitPointCases true true none true vc ivn lpR subs).mergeCode ++
          [makeResizeVals ri vc] ∧
      (emitPointCases true true (some ri) true vc ivn lpR subs).caseBodies =
        subs.map (fun lq => lq.body)) ∧
    (subs.length = 1 →
      (emitPointCases true true (some ri) true vc ivn lpR subs).mergeCode =
        (emitPointCases true true none true vc ivn lpR subs).mergeCode ∧
      (emitPointCases true true (some ri) true vc ivn lpR subs).caseBodies =
        subs.map (fun lq => makeResizeVals ri vc :: lq.body)) := by
  refine ⟨rfl, ?_, ?_⟩
  · intro h1
    have h1' : (subs.length == 1) = false := by
      simp only [beq_eq_false_iff_ne]
      omega
    constructor
    · simp [emitPointCases, happ, h1, List.append_assoc]
    · simp [emitPointCases, happ, h1, h1']
  · intro h1
    have hgt : ¬(1 < subs.length) := by omega
    constructor
    · simp [emitPointCases, happ, h1, hgt]
    · simp [emitPointCases, happ, h1]

/-- C6 witness: with two sub-lattice points the resize goes once before the
cases. -/
theorem C6_witness :
    (emitPointCases true true (some itResApp) true (.varE "cap") "k"
        [] subsTwo).mergeCode =
      (emitPointCases true true none true (.varE "cap") "k"
        [] subsTwo).mergeCode ++ [makeResizeVals itResApp (.varE "cap")] :=
  ((C6_resize_placement itResApp (.varE "cap") "k" [] subsTwo
    (by decide)).2.1 (by decide)).1

/-- C7: the claim lists five programmer errors all raised by isLowerable; a
statement that is concrete notation but contains an unsupported
transposition is nevertheless accepted, because the transposition check is
commented out in the source. -/
theorem C7_counterexample :
    isLowerable stmtTrans = (true, "") ∧
    stmtTrans.unsupportedTransposition = true := by
  constructor <;> rfl

/-- C7 (amended): isLowerable returns false, with the human readable reason
string, exactly for statements that are not concrete index notation (which
per the specification covers reduction nodes surviving to lowering); the
transposition, format mismatch and duplicate assignment checks are not
performed there. -/
theorem C7_isLowerable_amended (s : IndexStmtInfo) :
    ((isLowerable s).1 = false ↔ s.isConcreteNotation = false) ∧
    (s.isConcreteNotation = false →
      (isLowerable s).2 = "The index statement is not in concrete index notation") := by
  cases hs : s.isConcreteNotation <;> simp [isLowerable, hs]

/-- C7 witness: a non-concrete statement is rejected. -/
theorem C7_witness : (isLowerable stmtNotConcrete).1 = false :=
  (C7_isLowerable_amended stmtNotConcrete).1.mpr (by decide)

/-- C8: the driver accepts an undefined or Add assignment operator and
aborts on any other defined operator, and it inserts Accumulate into the
property set exactly when the operator is Add. -/
theorem C8_operator_contract (op : Option OperatorKind) (props : List Property) :
    (driverAcceptsOperator op = true ↔ (op = none ∨ op = some OperatorKind.add)) ∧
    (Property.accumulate ∈ driverProperties op props ↔
      (op = some OperatorKind.add ∨ Property.accumulate ∈ props)) ∧
    (op ≠ some OperatorKind.add → driverProperties op props = props) := by
  refine ⟨?_, ?_, ?_⟩
  · cases op with
    | none => simp [driverAcceptsOperator]
    | some k => cases k <;> simp [driverAcceptsOperator]
  · by_cases hop : op = some OperatorKind.add
    · by_cases hmem : Property.accumulate ∈ props <;>
        simp [driverProperties, hop, hmem]
    · simp [driverProperties, hop]
  · intro hop
    simp [driverProperties, hop]

/-- C8 witness: an Add operator inserts Accumulate. -/
theorem C8_witness :
    Property.accumulate ∈ driverProperties (some OperatorKind.add) [Property.compute] :=
  (C8_operator_contract (some OperatorKind.add) [Property.compute]).2.1.mpr (Or.inl rfl)

/-- C9: every insert overload fails exactly when the coordinate arity or the
component type mismatches, and otherwise appends exactly one coordinate,
leaving name, dimensions, format levels and packed values unchanged. -/
theorem C9_insert_contract (t : TensorBase) (c : List Int) (vi vf vd : Int) (vb : Bool) :
    InsertOk t c { loc := c, ival := vi } (t.insertInt c vi)
      (t.ctype = ComponentType.int) ∧
    InsertOk t c { loc := c, fval := vf } (t.insertFloat c vf)
      (t.ctype = ComponentType.float) ∧
    InsertOk t c { loc := c, dval := vd } (t.insertDouble c vd)
      (t.ctype = ComponentType.double) ∧
    InsertOk t c { loc := c, bval := vb } (t.insertBool c vb)
      (t.ctype = ComponentType.bool) := by
  refine ⟨?_, ?_, ?_, ?_⟩ <;>
  · simp only [InsertOk, TensorBase.insertInt, TensorBase.insertFloat,
      TensorBase.insertDouble, TensorBase.insertBool]
    split_ifs with h1 h2 <;> simp_all

/-- C9 witness: inserting a double into a double typed order one tensor
succeeds. -/
theorem C9_witness : ∃ u, tEx.insertDouble [1] 5 = .ok u :=
  (C9_insert_contract tEx [1] 0 0 5 false).2.2.1.1.mpr ⟨by decide, by decide⟩

/-- C10: the claim says pack writes the value of the most recently inserted
coordinate for every order zero tensor, but the source reads the dval field
of the last pending coordinate regardless of the component type.  On an int
typed scalar tensor, inserting the int value 5 succeeds, yet pack stores the
untouched dval, 0, at position 0 instead of the inserted value. -/
theorem C10_counterexample :
    tScalarInt.insertInt [] 5 = .ok tScalarIntIns ∧
    tScalarIntIns.pack =
      some { tScalarIntIns with coordinates := [], values := [0] } :=
  ⟨rfl, by decide⟩

/-- C10 (amended): packing an order zero tensor with a non-empty coordinate
buffer stores the dval field of the most recently inserted coordinate at
position 0 of the values array, discards the earlier values, and clears the
buffer; for a double typed tensor that field is the most recently inserted
value, as the second conjunct shows through insertDouble. -/
theorem C10_pack_scalar (t : TensorBase) (h0 : t.order = 0)
    (hne : t.coordinates ≠ []) :
    t.pack = some { t with
      values := [(t.coordinates.getLast hne).dval], coordinates := [] } ∧
    (t.ctype = ComponentType.double → ∀ v u, t.insertDouble [] v = .ok u →
      u.pack = some { u with values := [v], coordinates := [] }) := by
  constructor
  · unfold TensorBase.pack
    rw [if_pos h0]
    have hlast : t.coordinates.getLastD default = t.coordinates.getLast hne := by
      rw [List.getLastD_eq_getLast?, List.getLast?_eq_getLast _ hne]
      rfl
    rw [hlast]
  · intro hd v u hu
    have hc1 : ¬(([] : List Int).length ≠ t.order) := by simp [h0]
    have hc2 : ¬(t.ctype ≠ ComponentType.double) := by simp [hd]
    unfold TensorBase.insertDouble at hu
    rw [if_neg hc1, if_neg hc2] at hu
    injection hu with hu'
    subst hu'
    have hdim : t.dimensions = [] := by
      have h0' := h0
      simp [TensorBase.order] at h0'
      exact h0'
    simp [TensorBase.pack, TensorBase.order, hdim, List.getLastD_concat]

/-- C10 witness: packing a scalar with two pending coordinates keeps only
the last one. -/
theorem C10_witness :
    tScalar.pack = some { tScalar with values := [7], coordinates := [] } := by
  have h := (C10_pack_scalar tScalar (by decide) (by decide)).1
  exact h.trans (by decide)

end Taco
